import Mathlib

/-! Verification of the RPG game client world-synchronization core.

Shallow embedding of the Python game client (`src/GameClient`):
entity data model and reconciliation (`game/entities.py`,
`game/game_screen.py`), token lifecycle (`grpc_client.py`) and the
resilient streaming/retry layer (`world_client.py`).

Numeric conventions: Python floats are modelled as rationals (`ℚ`),
Python ints as `ℤ`.  Wall-clock bookkeeping fields of `Entity`
(`last_update`, `last_sync`) are omitted: they are written only from
`time.time()` and read by no reconciliation or sync code path.
Protobuf message record shapes (the `Generated` package is not in the
repository sources) are modelled from the spec, section 6, and from the
field accesses visible in the client code.
-/

/-- The `EntityType` enum from `game/entities.py`. -/
inductive EntityType
| player
| npc
| monster
| item
deriving DecidableEq, Repr

/-- The `MovementState` enum from `game/entities.py`. -/
inductive MovementState
| idle
| walking
| running
| attacking
| dead
deriving DecidableEq, Repr

/-- Dynamic value stored in the `movement_state` attribute.  The Python
code assigns both `MovementState` enum members (e.g. `Entity.__init__`,
`take_damage`) and raw strings (e.g. `_process_movement` assigns
`"walk"`/`"run"`; `_apply_player_updates` assigns the protobuf string
field directly). -/
inductive MVal
| enumv (m : MovementState)
| raw (s : String)
deriving DecidableEq, Repr

/-- The `Stats` dataclass from `game/entities.py`. -/
structure Stats where
  hp : ℤ
  max_hp : ℤ
  mp : ℤ
  max_mp : ℤ
  level : ℤ
  experience : ℤ
  attack : ℤ
  defense : ℤ
  speed : ℚ
deriving DecidableEq, Repr

/-- The `Entity` class from `game/entities.py` (fields set in `Entity.__init__`;
wall-clock fields `last_update`/`last_sync` omitted, see header). -/
structure Entity where
  id : String
  type : EntityType
  name : String
  x : ℚ
  y : ℚ
  target_x : ℚ
  target_y : ℚ
  movement_state : MVal
  facing_direction : ℤ
  width : ℤ
  height : ℤ
  color : ℤ × ℤ × ℤ
  stats : Stats
  inventory : List String
  is_selected : Bool
  in_combat : Bool
  needs_sync : Bool
deriving DecidableEq, Repr

/-- Embeds `Entity._get_default_color` from `game/entities.py`. -/
def defaultColor : EntityType → ℤ × ℤ × ℤ
| .player => (0, 120, 255)
| .npc => (0, 200, 0)
| .monster => (200, 0, 0)
| .item => (255, 255, 0)

/-- Embeds `Entity.__init__` from `game/entities.py`. -/
def Entity.init (entity_id : String) (entity_type : EntityType) (x y : ℚ)
    (name : String) : Entity :=
  { id := entity_id
    type := entity_type
    name := name
    x := x
    y := y
    target_x := x
    target_y := y
    movement_state := .enumv .idle
    facing_direction := 0
    width := 24
    height := 24
    color := defaultColor entity_type
    stats := { hp := 100, max_hp := 100, mp := 50, max_mp := 50, level := 1
               experience := 0, attack := 10, defense := 5, speed := 100 }
    inventory := []
    is_selected := false
    in_combat := false
    needs_sync := false }

/-- Embeds `Entity.take_damage` from `game/entities.py`:
`hp = max(0, hp - damage)`, movement state set to `DEAD` when the new
hp is zero, sync flag raised. -/
def Entity.take_damage (e : Entity) (damage : ℤ) : Entity :=
  let hp1 := max 0 (e.stats.hp - damage)
  { e with
    stats := { e.stats with hp := hp1 }
    movement_state := if hp1 = 0 then .enumv .dead else e.movement_state
    needs_sync := true }

/-- Embeds `Entity.heal` from `game/entities.py`:
`hp = min(max_hp, hp + amount)`, sync flag raised. -/
def Entity.heal (e : Entity) (amount : ℤ) : Entity :=
  { e with
    stats := { e.stats with hp := min e.stats.max_hp (e.stats.hp + amount) }
    needs_sync := true }

/-! ## The entity store

`EntityManager.entities` is a Python `dict` keyed by entity id.  We
embed it as an association list with `dict` semantics: assignment
replaces in place (or appends a new key at the end), deletion removes
the key, lookup scans for the key. -/

abbrev EntityStore := List (String × Entity)

/-- Dictionary lookup, `self.entities.get(entity_id)`. -/
def findEntity : EntityStore → String → Option Entity
| [], _ => none
| (k, e) :: rest, key => if k = key then some e else findEntity rest key

/-- Dictionary assignment `self.entities[key] = v`. -/
def storeSet : EntityStore → String → Entity → EntityStore
| [], key, v => [(key, v)]
| (k, e) :: rest, key, v =>
    if k = key then (key, v) :: rest else (k, e) :: storeSet rest key v

/-- Dictionary deletion `del self.entities[key]`. -/
def storeRemove (s : EntityStore) (key : String) : EntityStore :=
  s.filter (fun p => p.1 ≠ key)

/-- Embeds `EntityManager.add_entity`: `self.entities[entity.id] = entity`. -/
def add_entity (s : EntityStore) (e : Entity) : EntityStore :=
  storeSet s e.id e

/-- Embeds `EntityManager.remove_entity`: deletes the key only when present,
otherwise does nothing (no error). -/
def remove_entity (s : EntityStore) (entity_id : String) : EntityStore :=
  if (findEntity s entity_id).isSome then storeRemove s entity_id else s

theorem findEntity_storeSet_self (s : EntityStore) (k : String) (v : Entity) :
    findEntity (storeSet s k v) k = some v := by
  induction s with
  | nil => simp [storeSet, findEntity]
  | cons p rest ih =>
      by_cases h : p.1 = k
      · simp [storeSet, h, findEntity]
      · simp only [storeSet]
        rw [if_neg h]
        simp [findEntity, h, ih]

theorem findEntity_storeSet_ne (s : EntityStore) (k k' : String) (v : Entity)
    (h : k ≠ k') : findEntity (storeSet s k v) k' = findEntity s k' := by
  induction s with
  | nil => simp [storeSet, findEntity, h]
  | cons p rest ih =>
      by_cases hp : p.1 = k
      · simp only [storeSet]
        rw [if_pos hp]
        simp [findEntity, h, hp]
      · simp only [storeSet]
        rw [if_neg hp]
        by_cases hp' : p.1 = k'
        · simp [findEntity, hp', ih]
        · simp [findEntity, hp', ih]

theorem findEntity_storeRemove_self (s : EntityStore) (k : String) :
    findEntity (storeRemove s k) k = none := by
  induction s with
  | nil => simp [storeRemove, findEntity]
  | cons p rest ih =>
      by_cases h : p.1 = k
      · simpa [storeRemove, h] using ih
      · simpa [storeRemove, findEntity, h] using ih

theorem findEntity_storeRemove_ne (s : EntityStore) (k k' : String)
    (h : k ≠ k') : findEntity (storeRemove s k) k' = findEntity s k' := by
  induction s with
  | nil => simp [storeRemove, findEntity]
  | cons p rest ih =>
      obtain ⟨a, b⟩ := p
      by_cases hp : a = k
      · have hp' : a ≠ k' := by rw [hp]; exact h
        have h1 : storeRemove ((a, b) :: rest) k = storeRemove rest k := by
          simp [storeRemove, List.filter_cons, hp]
        rw [h1, ih]
        simp [findEntity, hp']
      · have h1 : storeRemove ((a, b) :: rest) k = (a, b) :: storeRemove rest k := by
          simp [storeRemove, List.filter_cons, hp]
        rw [h1]
        by_cases hp' : a = k'
        · simp [findEntity, hp']
        · simp [findEntity, hp', ih]

theorem findEntity_remove_entity_self (s : EntityStore) (k : String) :
    findEntity (remove_entity s k) k = none := by
  unfold remove_entity
  by_cases h : (findEntity s k).isSome
  · simp [h, findEntity_storeRemove_self]
  · simp only [h, if_false]
    exact Option.not_isSome_iff_eq_none.mp h

theorem findEntity_remove_entity_ne (s : EntityStore) (k k' : String)
    (h : k ≠ k') : findEntity (remove_entity s k) k' = findEntity s k' := by
  unfold remove_entity
  by_cases hs : (findEntity s k).isSome
  · simp [hs, findEntity_storeRemove_ne s k k' h]
  · simp [hs]

theorem remove_entity_absent (s : EntityStore) (k : String)
    (h : findEntity s k = none) : remove_entity s k = s := by
  unfold remove_entity
  simp [h]

/-! ## Full-roster player snapshots (`_apply_player_updates`)

`GameScreen._apply_player_updates` drains queued `GetWorldState` player
rosters on the main thread.  `PlayerInfo` is the protobuf message shape
used there. -/

/-- Modelled from the spec: protobuf `PlayerInfo` message (spec section 6,
`getWorldSnapshot`/`joinWorld` player entries).  The `Generated`
protobuf package is absent from the sources; the field names and types
follow the accesses in `game_screen.py` (numeric protobuf fields as
`ℤ`/`ℚ`, `movement_state` as the wire string). -/
structure PlayerInfo where
  id : String
  name : String
  is_online : Bool
  position_x : ℚ
  position_y : ℚ
  level : ℤ
  experience : ℤ
  current_hp : ℤ
  max_hp : ℤ
  current_mp : ℤ
  max_mp : ℤ
  attack : ℤ
  defense : ℤ
  facing_direction : ℤ
  movement_state : String
deriving DecidableEq, Repr

/-- Entity key built for roster entries: `f"player_{player_info.id}"`. -/
def pKey (i : PlayerInfo) : String := "player_" ++ i.id

/-- Embeds `entity_id.startswith("player_")`, embedded on the character data of
the string. -/
def isPlayerKey (k : String) : Bool := "player_".data.isPrefixOf k.data

theorem isPlayerKey_pKey (i : PlayerInfo) : isPlayerKey (pKey i) = true := by
  unfold isPlayerKey pKey
  rw [String.data_append, List.isPrefixOf_iff_prefix]
  exact List.prefix_append _ _

theorem pKey_ne_of_not_isPlayerKey {k : String} (h : ¬ isPlayerKey k = true)
    (i : PlayerInfo) : pKey i ≠ k := by
  intro hk
  exact h (hk ▸ isPlayerKey_pKey i)

theorem pKey_inj {i j : PlayerInfo} (h : pKey i = pKey j) : i.id = j.id := by
  unfold pKey at h
  have hd := congrArg String.data h
  rw [String.data_append, String.data_append] at hd
  have : i.id.data = j.id.data := List.append_cancel_left hd
  exact String.ext this

/-- The update branch of `_apply_player_updates` for an existing remote
player entity: overwrites position, facing, movement state, hp and
level. -/
def updFields (i : PlayerInfo) (e : Entity) : Entity :=
  { e with
    x := i.position_x
    y := i.position_y
    facing_direction := i.facing_direction
    movement_state := .raw i.movement_state
    stats := { e.stats with hp := i.current_hp, level := i.level } }

/-- The create branch (`_add_other_players`, reached from
`_apply_player_updates` when the entity is unknown): a fresh
`Entity(...)` with remote-player colour and the roster stats. -/
def createRemote (i : PlayerInfo) : Entity :=
  let e := Entity.init (pKey i) .player i.position_x i.position_y i.name
  { e with
    color := (0, 100, 255)
    stats := { e.stats with
               level := i.level, hp := i.current_hp, max_hp := i.max_hp
               mp := i.current_mp, max_mp := i.max_mp
               attack := i.attack, defense := i.defense }
    facing_direction := i.facing_direction
    movement_state := .raw i.movement_state }

/-- Combined effect on one key of the online branch of
`_apply_player_updates`: update when present, create when absent. -/
def upsertVal (i : PlayerInfo) : Option Entity → Entity
| some e => updFields i e
| none => createRemote i

/-- The set `current_remote_players`: keys present in the store that start with
`"player_"` and differ from the local player id. -/
def remoteIds (localId : String) (s : EntityStore) : List String :=
  (s.map Prod.fst).filter (fun k => isPlayerKey k && k != localId)

/-- The set `still_online`: keys of roster entries that are online and not
name-matched to the local player (those are skipped). -/
def still_online (localName : String) (ps : List PlayerInfo) : List String :=
  (ps.filter (fun i => i.is_online && i.name != localName)).map pKey

/-- Body of the per-entry loop of `_apply_player_updates`: skip
name-matched entries, upsert online entries, remove offline entries that
were previously known remote players. -/
def phase1Step (localName : String) (remotes : List String)
    (s : EntityStore) (i : PlayerInfo) : EntityStore :=
  if i.name = localName then s
  else if i.is_online then
    match findEntity s (pKey i) with
    | some e => storeSet s (pKey i) (updFields i e)
    | none => add_entity s (createRemote i)
  else if pKey i ∈ remotes then remove_entity s (pKey i) else s

/-- Final cleanup loop of `_apply_player_updates`: previously known
remote players no longer online are removed. -/
def cleanupStep (stillOn : List String) (s : EntityStore) (k : String) :
    EntityStore :=
  if k ∈ stillOn then s else remove_entity s k

/-- Embeds `GameScreen._apply_player_updates` (`game_screen.py`, lines
1195-1247): full-roster snapshot reconciliation. -/
def apply_player_updates (localId localName : String) (s : EntityStore)
    (ps : List PlayerInfo) : EntityStore :=
  (remoteIds localId s).foldl (cleanupStep (still_online localName ps))
    (ps.foldl (phase1Step localName (remoteIds localId s)) s)

theorem nodup_id_unique {ps : List PlayerInfo}
    (h : (ps.map PlayerInfo.id).Nodup) {i j : PlayerInfo}
    (hi : i ∈ ps) (hj : j ∈ ps) (hij : i.id = j.id) : i = j := by
  induction ps with
  | nil => cases hi
  | cons p rest ih =>
      rw [List.map_cons, List.nodup_cons] at h
      rcases List.mem_cons.mp hi with rfl | hi'
      · rcases List.mem_cons.mp hj with rfl | hj'
        · rfl
        · exact absurd (hij ▸ List.mem_map_of_mem PlayerInfo.id hj') h.1
      · rcases List.mem_cons.mp hj with rfl | hj'
        · exact absurd (hij ▸ List.mem_map_of_mem PlayerInfo.id hi') h.1
        · exact ih h.2 hi' hj'

theorem phase1Step_other_key (localName : String) (remotes : List String)
    (s : EntityStore) (i : PlayerInfo) (k : String) (hk : pKey i ≠ k) :
    findEntity (phase1Step localName remotes s i) k = findEntity s k := by
  unfold phase1Step
  by_cases hn : i.name = localName
  · simp [hn]
  · rw [if_neg hn]
    by_cases ho : i.is_online = true
    · rw [if_pos ho]
      cases hfe : findEntity s (pKey i) with
      | some e =>
          show findEntity (storeSet s (pKey i) (updFields i e)) k = findEntity s k
          rw [findEntity_storeSet_ne _ _ _ _ hk]
      | none =>
          show findEntity (add_entity s (createRemote i)) k = findEntity s k
          unfold add_entity
          have hid : (createRemote i).id = pKey i := rfl
          rw [hid, findEntity_storeSet_ne _ _ _ _ hk]
    · rw [if_neg ho]
      by_cases hr : pKey i ∈ remotes
      · rw [if_pos hr]
        exact findEntity_remove_entity_ne _ _ _ hk
      · rw [if_neg hr]

theorem findEntity_phase1 (localName : String) (remotes : List String)
    (ps : List PlayerInfo) (hnd : (ps.map PlayerInfo.id).Nodup)
    (s : EntityStore) (k : String) :
    findEntity (ps.foldl (phase1Step localName remotes) s) k =
      match ps.find? (fun i => pKey i == k) with
      | some i =>
          if i.name = localName then findEntity s k
          else if i.is_online then some (upsertVal i (findEntity s k))
          else if k ∈ remotes then none else findEntity s k
      | none => findEntity s k := by
  induction ps generalizing s with
  | nil => simp [List.find?]
  | cons i rest ih =>
      rw [List.map_cons, List.nodup_cons] at hnd
      by_cases hk : pKey i = k
      · have hfind : (i :: rest).find? (fun j => pKey j == k) = some i :=
          List.find?_cons_of_pos _ (by simp [hk])
        have hrest : rest.find? (fun j => pKey j == k) = none := by
          rw [List.find?_eq_none]
          intro j hj hbeq
          have hkey : pKey j = k := by simpa using hbeq
          have hid : i.id = j.id := pKey_inj (hk.trans hkey.symm)
          exact hnd.1 (hid ▸ List.mem_map_of_mem PlayerInfo.id hj)
        rw [List.foldl_cons, ih hnd.2, hrest, hfind]
        subst hk
        show findEntity (phase1Step localName remotes s i) (pKey i) =
          if i.name = localName then findEntity s (pKey i)
          else if i.is_online then some (upsertVal i (findEntity s (pKey i)))
          else if pKey i ∈ remotes then none else findEntity s (pKey i)
        unfold phase1Step
        by_cases hn : i.name = localName
        · rw [if_pos hn, if_pos hn]
        · rw [if_neg hn, if_neg hn]
          by_cases ho : i.is_online = true
          · rw [if_pos ho, if_pos ho]
            cases hfe : findEntity s (pKey i) with
            | some e =>
                show findEntity (storeSet s (pKey i) (updFields i e)) (pKey i) =
                  some (upsertVal i (some e))
                rw [findEntity_storeSet_self]
                rfl
            | none =>
                show findEntity (add_entity s (createRemote i)) (pKey i) =
                  some (upsertVal i none)
                unfold add_entity
                have hid : (createRemote i).id = pKey i := rfl
                rw [hid, findEntity_storeSet_self]
                rfl
          · rw [if_neg ho, if_neg ho]
            by_cases hr : pKey i ∈ remotes
            · rw [if_pos hr, if_pos hr]
              exact findEntity_remove_entity_self _ _
            · rw [if_neg hr, if_neg hr]
      · have hfind : (i :: rest).find? (fun j => pKey j == k) =
            rest.find? (fun j => pKey j == k) :=
          List.find?_cons_of_neg _ (by simp [hk])
        rw [List.foldl_cons, ih hnd.2, hfind,
          phase1Step_other_key localName remotes s i k hk]

theorem findEntity_cleanup (stillOn : List String) (remotes : List String)
    (s : EntityStore) (k : String) :
    findEntity (remotes.foldl (cleanupStep stillOn) s) k =
      if k ∈ remotes ∧ k ∉ stillOn then none else findEntity s k := by
  induction remotes generalizing s with
  | nil => simp
  | cons r rest ih =>
      rw [List.foldl_cons, ih]
      by_cases hrk : r = k
      · subst hrk
        by_cases hso : r ∈ stillOn
        · have hstep : cleanupStep stillOn s r = s := by simp [cleanupStep, hso]
          rw [hstep]
          simp [hso]
        · have hstep : cleanupStep stillOn s r = remove_entity s r := by
            simp [cleanupStep, hso]
          rw [hstep]
          by_cases hr2 : r ∈ rest
          · simp [hr2, hso, findEntity_remove_entity_self]
          · simp [hr2, hso, findEntity_remove_entity_self]
      · have hstep : findEntity (cleanupStep stillOn s r) k = findEntity s k := by
          unfold cleanupStep
          by_cases hso : r ∈ stillOn
          · rw [if_pos hso]
          · rw [if_neg hso]
            exact findEntity_remove_entity_ne s r k hrk
        rw [hstep]
        have hmem : (k ∈ r :: rest ∧ k ∉ stillOn) ↔ (k ∈ rest ∧ k ∉ stillOn) := by
          constructor
          · rintro ⟨hk1, hk2⟩
            rcases List.mem_cons.mp hk1 with h1 | h1
            · exact absurd h1.symm hrk
            · exact ⟨h1, hk2⟩
          · rintro ⟨hk1, hk2⟩
            exact ⟨List.mem_cons_of_mem r hk1, hk2⟩
        by_cases hc : k ∈ rest ∧ k ∉ stillOn
        · rw [if_pos hc, if_pos (hmem.mpr hc)]
        · rw [if_neg hc, if_neg (fun hh => hc (hmem.mp hh))]

theorem mem_remoteIds {localId : String} {s : EntityStore} {k : String} :
    k ∈ remoteIds localId s ↔
      (k ∈ s.map Prod.fst ∧ isPlayerKey k = true ∧ k ≠ localId) := by
  unfold remoteIds
  rw [List.mem_filter]
  simp [Bool.and_eq_true, bne_iff_ne, and_assoc]

theorem findEntity_isSome_iff_mem_keys {s : EntityStore} {k : String} :
    (findEntity s k).isSome ↔ k ∈ s.map Prod.fst := by
  induction s with
  | nil => simp [findEntity]
  | cons p rest ih =>
      obtain ⟨a, b⟩ := p
      by_cases h : a = k
      · simp [findEntity, h]
      · simp only [findEntity, if_neg h, List.map_cons, List.mem_cons]
        rw [ih]
        constructor
        · exact Or.inr
        · rintro (h1 | h1)
          · exact absurd h1.symm h
          · exact h1

theorem mem_still_online {localName : String} {ps : List PlayerInfo}
    {k : String} :
    k ∈ still_online localName ps ↔
      ∃ i ∈ ps, pKey i = k ∧ i.is_online = true ∧ i.name ≠ localName := by
  unfold still_online
  rw [List.mem_map]
  constructor
  · rintro ⟨i, hi, rfl⟩
    rw [List.mem_filter] at hi
    have hcond := hi.2
    rw [Bool.and_eq_true, bne_iff_ne] at hcond
    exact ⟨i, hi.1, rfl, hcond.1, hcond.2⟩
  · rintro ⟨i, hi, rfl, hon, hname⟩
    refine ⟨i, ?_, rfl⟩
    rw [List.mem_filter, Bool.and_eq_true, bne_iff_ne]
    exact ⟨hi, hon, hname⟩

/-- Closed form for a full-roster snapshot application: a key matched by
an online, non-name-skipped roster entry holds that entry's merged
entity; every other previously known remote-player key is gone; all
remaining keys are untouched. -/
theorem findEntity_apply_player_updates (localId localName : String)
    (s : EntityStore) (ps : List PlayerInfo)
    (hnd : (ps.map PlayerInfo.id).Nodup) (k : String) :
    findEntity (apply_player_updates localId localName s ps) k =
      match ps.find? (fun i => pKey i == k) with
      | some i =>
          if i.name ≠ localName ∧ i.is_online = true then
            some (upsertVal i (findEntity s k))
          else if k ∈ remoteIds localId s then none else findEntity s k
      | none => if k ∈ remoteIds localId s then none else findEntity s k := by
  unfold apply_player_updates
  rw [findEntity_cleanup, findEntity_phase1 localName _ ps hnd s k]
  cases hfind : ps.find? (fun i => pKey i == k) with
  | none =>
      have hso : k ∉ still_online localName ps := by
        intro hmem
        obtain ⟨j, hj, hjk, hon, hname⟩ := mem_still_online.mp hmem
        have hnone := List.find?_eq_none.mp hfind j hj
        simp [hjk] at hnone
      by_cases hr : k ∈ remoteIds localId s
      · rw [if_pos ⟨hr, hso⟩, if_pos hr]
      · rw [if_neg (fun hh => hr hh.1), if_neg hr]
  | some i =>
      show (if k ∈ remoteIds localId s ∧ k ∉ still_online localName ps then none
          else if i.name = localName then findEntity s k
          else if i.is_online then some (upsertVal i (findEntity s k))
          else if k ∈ remoteIds localId s then none else findEntity s k) =
        (if i.name ≠ localName ∧ i.is_online = true then
            some (upsertVal i (findEntity s k))
          else if k ∈ remoteIds localId s then none else findEntity s k)
      have hik : pKey i = k := by
        have hpred := List.find?_some hfind
        simpa using hpred
      have hmem : i ∈ ps := List.mem_of_find?_eq_some hfind
      by_cases hcase : i.name ≠ localName ∧ i.is_online = true
      · have hso : k ∈ still_online localName ps :=
          mem_still_online.mpr ⟨i, hmem, hik, hcase.2, hcase.1⟩
        rw [if_neg (fun hh => hh.2 hso), if_neg hcase.1, if_pos hcase.2,
          if_pos hcase]
      · have hso : k ∉ still_online localName ps := by
          intro hmem2
          obtain ⟨j, hj, hjk, hon, hname⟩ := mem_still_online.mp hmem2
          have hid : j.id = i.id := pKey_inj (hjk.trans hik.symm)
          have : j = i := nodup_id_unique hnd hj hmem hid
          subst this
          exact hcase ⟨hname, hon⟩
        rw [if_neg hcase]
        by_cases hr : k ∈ remoteIds localId s
        · rw [if_pos ⟨hr, hso⟩, if_pos hr]
        · rw [if_neg (fun hh => hr hh.1), if_neg hr]
          by_cases hn : i.name = localName
          · rw [if_pos hn]
          · rw [if_neg hn]
            have ho : ¬ i.is_online = true := fun hh => hcase ⟨hn, hh⟩
            rw [if_neg ho]

/-! ## Incremental world-entity diffs (`_process_world_entity_updates`)

The streaming worker enqueues `GetWorldUpdates` messages; the main
thread drains the queue and applies each message: updated entities are
merged (created when unknown), then removed ids are deleted.  A Python
exception while merging (an unknown `movement_state` string raises
`ValueError` in `MovementState(...)`) aborts the processing of the
remainder of the queue; mutations already performed persist.  The
embedding returns the store together with an optional error message. -/

/-- Modelled from the spec: protobuf `WorldEntity` message (spec section
6, `subscribeWorldUpdates` updated-entity entries).  The `Generated`
protobuf package is absent from the sources; field names and types
follow the accesses in `game_screen.py`. -/
structure WorldEntityData where
  id : String
  entity_type : String
  name : String
  position_x : ℚ
  position_y : ℚ
  current_hp : ℤ
  max_hp : ℤ
  current_mp : ℤ
  max_mp : ℤ
  attack : ℤ
  defense : ℤ
  facing_direction : ℤ
  movement_state : String
  is_alive : Bool
deriving DecidableEq, Repr

/-- Modelled from the spec: one `subscribeWorldUpdates` stream message,
`{updatedEntities[], removedIds[]}` (spec section 6). -/
structure WorldUpdate where
  updated_entities : List WorldEntityData
  removed_entity_ids : List String
deriving DecidableEq, Repr

/-- Embeds `MovementState(value)`: Python enum lookup by value, raising
`ValueError` on an unknown string (modelled as `none`). -/
def movementStateOfString : String → Option MovementState
| "idle" => some .idle
| "walking" => some .walking
| "running" => some .running
| "attacking" => some .attacking
| "dead" => some .dead
| _ => none

/-- Embeds `MovementState(entity_data.movement_state) if
entity_data.movement_state else MovementState.IDLE` (empty string is
falsy). -/
def parseMovement (s : String) : Except String MovementState :=
  if s = "" then .ok .idle
  else match movementStateOfString s with
    | some m => .ok m
    | none => .error "ValueError: invalid MovementState value"

/-- Entity-type string mapping at the top of
`_create_entity_from_server_data` (type and colour; unknown types
default to NPC, gray). -/
def entityTypeOf : String → EntityType × (ℤ × ℤ × ℤ)
| "npc" => (.npc, (0, 200, 0))
| "monster" => (.monster, (200, 0, 0))
| "item" => (.item, (255, 255, 0))
| _ => (.npc, (128, 128, 128))

/-- Embeds `GameScreen._create_entity_from_server_data`: builds a local entity
from a server `WorldEntity`; monsters additionally receive stats,
facing and a parsed movement state (parse failure raises before the
entity is produced). -/
def create_entity_from_server_data (d : WorldEntityData) :
    Except String Entity :=
  let tc := entityTypeOf d.entity_type
  let e := Entity.init d.id tc.1 d.position_x d.position_y d.name
  let e1 := { e with color := tc.2 }
  if tc.1 = .monster then
    match parseMovement d.movement_state with
    | .ok m =>
        .ok { e1 with
          stats := { e1.stats with
                     hp := d.current_hp, max_hp := d.max_hp
                     mp := d.current_mp, max_mp := d.max_mp
                     attack := d.attack, defense := d.defense }
          facing_direction := d.facing_direction
          movement_state := .enumv m }
    | .error msg =>
        -- stats/facing had been assigned on the in-flight object, but it
        -- is never added to the store, so the store is unaffected
        .error msg
  else .ok e1

/-- Embeds `GameScreen._update_entity_from_server_data`: position is always
overwritten; monsters additionally get hp/mp bounds, facing and a
parsed movement state.  On a parse failure the mutations already made
(position, stats, facing) persist, mirroring in-place mutation. -/
def update_entity_from_server_data (s : EntityStore) (d : WorldEntityData) :
    EntityStore × Option String :=
  match findEntity s d.id with
  | none => (s, none)
  | some e =>
      let e1 := { e with x := d.position_x, y := d.position_y }
      if e.type = .monster then
        let e2 := { e1 with
          stats := { e1.stats with
                     hp := d.current_hp, max_hp := d.max_hp
                     mp := d.current_mp, max_mp := d.max_mp }
          facing_direction := d.facing_direction }
        match parseMovement d.movement_state with
        | .ok m => (storeSet s d.id { e2 with movement_state := .enumv m }, none)
        | .error msg => (storeSet s d.id e2, some msg)
      else (storeSet s d.id e1, none)

/-- The updated-entities loop of `_process_world_entity_updates`:
known ids are merged in place, unknown ids are created and added; the
first raised exception aborts the loop. -/
def apply_entity_updates : EntityStore → List WorldEntityData →
    EntityStore × Option String
| s, [] => (s, none)
| s, d :: rest =>
    match findEntity s d.id with
    | some _ =>
        match update_entity_from_server_data s d with
        | (s1, none) => apply_entity_updates s1 rest
        | (s1, some msg) => (s1, some msg)
    | none =>
        match create_entity_from_server_data d with
        | .ok e => apply_entity_updates (add_entity s e) rest
        | .error msg => (s, some msg)

/-- Embeds `GameScreen._process_world_entity_updates` for a single queued
stream message: merge updated entities, then delete removed ids (the
removal loop runs only when the update loop raised no exception, since
the exception aborts the surrounding `while`). -/
def process_world_entity_updates (s : EntityStore) (u : WorldUpdate) :
    EntityStore × Option String :=
  match apply_entity_updates s u.updated_entities with
  | (s1, none) => (u.removed_entity_ids.foldl remove_entity s1, none)
  | (s1, some msg) => (s1, some msg)

theorem findEntity_remove_fold_none (l : List String) (s : EntityStore)
    (k : String) (h : findEntity s k = none) :
    findEntity (l.foldl remove_entity s) k = none := by
  induction l generalizing s with
  | nil => exact h
  | cons r rest ih =>
      rw [List.foldl_cons]
      apply ih
      by_cases hr : r = k
      · subst hr; exact findEntity_remove_entity_self s r
      · rw [findEntity_remove_entity_ne s r k hr]; exact h

theorem findEntity_remove_fold_mem (l : List String) (s : EntityStore)
    (k : String) (h : k ∈ l) :
    findEntity (l.foldl remove_entity s) k = none := by
  induction l generalizing s with
  | nil => cases h
  | cons r rest ih =>
      rw [List.foldl_cons]
      rcases List.mem_cons.mp h with rfl | h'
      · exact findEntity_remove_fold_none rest _ k
          (findEntity_remove_entity_self s k)
      · exact ih _ h'

theorem findEntity_remove_fold_not_mem (l : List String) (s : EntityStore)
    (k : String) (h : k ∉ l) :
    findEntity (l.foldl remove_entity s) k = findEntity s k := by
  induction l generalizing s with
  | nil => rfl
  | cons r rest ih =>
      rw [List.foldl_cons]
      have hrk : r ≠ k := fun hh => h (hh ▸ List.mem_cons_self r rest)
      rw [ih _ (fun hh => h (List.mem_cons_of_mem r hh)),
        findEntity_remove_entity_ne s r k hrk]

theorem create_entity_id (d : WorldEntityData) (e : Entity)
    (h : create_entity_from_server_data d = .ok e) : e.id = d.id := by
  unfold create_entity_from_server_data at h
  by_cases hm : (entityTypeOf d.entity_type).1 = .monster
  · rw [if_pos hm] at h
    cases hp : parseMovement d.movement_state with
    | ok m =>
        rw [hp] at h
        injection h with h2
        rw [← h2]
        rfl
    | error msg =>
        rw [hp] at h
        cases h
  · rw [if_neg hm] at h
    injection h with h2
    rw [← h2]
    rfl

theorem update_entity_other_key (s : EntityStore) (d : WorldEntityData)
    (k : String) (hk : d.id ≠ k) :
    findEntity (update_entity_from_server_data s d).1 k = findEntity s k := by
  cases hfe : findEntity s d.id with
  | none => simp [update_entity_from_server_data, hfe]
  | some e =>
      by_cases hm : e.type = .monster
      · cases hp : parseMovement d.movement_state with
        | ok m =>
            simp [update_entity_from_server_data, hfe, hm, hp,
              findEntity_storeSet_ne s d.id k _ hk]
        | error msg =>
            simp [update_entity_from_server_data, hfe, hm, hp,
              findEntity_storeSet_ne s d.id k _ hk]
      · simp [update_entity_from_server_data, hfe, hm,
          findEntity_storeSet_ne s d.id k _ hk]

theorem apply_entity_updates_other_key (ds : List WorldEntityData)
    (s : EntityStore) (k : String) (h : ∀ d ∈ ds, d.id ≠ k) :
    findEntity (apply_entity_updates s ds).1 k = findEntity s k := by
  induction ds generalizing s with
  | nil => rfl
  | cons d rest ih =>
      have hd : d.id ≠ k := h d (List.mem_cons_self d rest)
      have hrest : ∀ d' ∈ rest, d'.id ≠ k :=
        fun d' hd' => h d' (List.mem_cons_of_mem d hd')
      unfold apply_entity_updates
      cases hfe : findEntity s d.id with
      | some e0 =>
          cases hupd : update_entity_from_server_data s d with
          | mk s1 err =>
              cases err with
              | none =>
                  have hs1 : findEntity s1 k = findEntity s k := by
                    have := update_entity_other_key s d k hd
                    rw [hupd] at this
                    exact this
                  rw [ih s1 hrest, hs1]
              | some msg =>
                  have hs1 : findEntity s1 k = findEntity s k := by
                    have := update_entity_other_key s d k hd
                    rw [hupd] at this
                    exact this
                  exact hs1
      | none =>
          cases hcr : create_entity_from_server_data d with
          | ok e =>
              have heid : e.id = d.id := create_entity_id d e hcr
              have hadd : findEntity (add_entity s e) k = findEntity s k := by
                unfold add_entity
                rw [heid]
                exact findEntity_storeSet_ne s d.id k e hd
              rw [ih (add_entity s e) hrest, hadd]
          | error msg => rfl

/-! ## The streaming reconnect loop (`world_client.get_world_updates_stream`)

The loop state is the `consecutive_errors` counter plus whether the
loop is still running.  One loop iteration first fetches a token and
opens the stream; `consecutive_errors` is reset to `0` immediately
after the stream object is created (before any message is received).
An error raised before that reset (e.g. the token fetch, or the stream
call itself) therefore increments the previous counter, while an error
raised while iterating the opened stream increments the freshly reset
counter (always yielding `1`).  We model one iteration by an event that
records where the failure occurred; `msgs` on post-open events counts
messages yielded before the failure (the loop itself never reads it).
The model covers the default invocation `get_world_updates_stream()`
used by `game_screen.py` (`max_total_retries=None`, i.e. no attempt
cap). -/

inductive StreamStatus
| running
| exitedAuthFailed
| exitedFatal
deriving DecidableEq, Repr

structure StreamState where
  consecutive_errors : ℕ
  status : StreamStatus
deriving DecidableEq, Repr

/-- One loop iteration outcome.  `r` is the value drawn from
`random.random()` (in `[0,1)`); `refreshOk` tells whether the forced
`authenticated_metadata()` token refresh succeeded.  The generic
non-`RpcError` branch (`except Exception`, lines 114-121) sleeps the
un-jittered backoff, so its events carry no jitter draw. -/
inductive StreamEvent
| endedNaturally (msgs : ℕ)
| transientPreOpen (r : ℚ)
| transientPostOpen (msgs : ℕ) (r : ℚ)
| authPreOpen (refreshOk : Bool)
| authPostOpen (msgs : ℕ) (refreshOk : Bool)
| fatalPreOpen
| fatalPostOpen (msgs : ℕ)
| genericPreOpen
| genericPostOpen (msgs : ℕ)
deriving DecidableEq, Repr

/-- Embeds `backoff = min(5.0, (2 ** min(consecutive_errors, 5)) * 0.25)`. -/
def backoffBase (n : ℕ) : ℚ := min 5 ((2 ^ min n 5) * (1/4))

/-- Embeds `backoff * (0.7 + random.random() * 0.6)`. -/
def jitterDelay (b r : ℚ) : ℚ := b * (7/10 + r * (3/5))

/-- State transition of one loop iteration, returning the new state and
the `time.sleep` delay the iteration performs, if any. -/
def streamStep (st : StreamState) (ev : StreamEvent) : StreamState × Option ℚ :=
  match ev with
  | .endedNaturally _ =>
      ({ consecutive_errors := 0, status := .running }, some (1/5))
  | .transientPreOpen r =>
      let n := st.consecutive_errors + 1
      ({ consecutive_errors := n, status := .running },
        some (jitterDelay (backoffBase n) r))
  | .transientPostOpen _ r =>
      ({ consecutive_errors := 1, status := .running },
        some (jitterDelay (backoffBase 1) r))
  | .authPreOpen refreshOk =>
      let n := st.consecutive_errors + 1
      if refreshOk then ({ consecutive_errors := n, status := .running }, some (1/4))
      else ({ consecutive_errors := n, status := .exitedAuthFailed }, none)
  | .authPostOpen _ refreshOk =>
      if refreshOk then ({ consecutive_errors := 1, status := .running }, some (1/4))
      else ({ consecutive_errors := 1, status := .exitedAuthFailed }, none)
  | .fatalPreOpen =>
      ({ consecutive_errors := st.consecutive_errors + 1, status := .exitedFatal },
        none)
  | .fatalPostOpen _ =>
      ({ consecutive_errors := 1, status := .exitedFatal }, none)
  | .genericPreOpen =>
      let n := st.consecutive_errors + 1
      ({ consecutive_errors := n, status := .running },
        some (backoffBase n))
  | .genericPostOpen _ =>
      ({ consecutive_errors := 1, status := .running }, some (backoffBase 1))

/-- Run a sequence of loop iterations from a state, collecting the
sleep delays in order (iterations after an exit do not happen). -/
def streamRun (st : StreamState) : List StreamEvent → StreamState × List ℚ
| [] => (st, [])
| ev :: evs =>
    if st.status = .running then
      let sd := streamStep st ev
      let rest := streamRun sd.1 evs
      (rest.1, (sd.2.elim [] (fun d => [d])) ++ rest.2)
    else (st, [])

/-- Runs `n` consecutive auth-rejected iterations whose token refresh keeps
succeeding, starting from a fresh loop. -/
def authRun : ℕ → StreamState
| 0 => { consecutive_errors := 0, status := .running }
| n + 1 => (streamStep (authRun n) (.authPreOpen true)).1

theorem authRun_running (n : ℕ) : authRun n = ⟨n, .running⟩ := by
  induction n with
  | zero => rfl
  | succ m ih => simp [authRun, ih, streamStep]

/-! ## The transport request/response retry wrapper
(`world_client._call_with_retry`) -/

/-- gRPC status codes distinguished by the client code. -/
inductive StatusCode
| unauthenticated
| unavailable
| deadlineExceeded
| internalError
| cancelledCall
| unknownOther
deriving DecidableEq, Repr

/-- The outcome the underlying RPC call would produce: a response, a
`grpc.RpcError` with a status code, or any other Python exception. -/
inductive RpcOutcome (α : Type)
| success (a : α)
| rpcError (code : StatusCode)
| pyError (msg : String)
deriving DecidableEq, Repr

/-- Embeds `WorldClient._call_with_retry`: run the call; on UNAUTHENTICATED
re-fetch the token metadata and retry exactly once, propagating
whatever the second attempt produces; any other outcome of the first
attempt is propagated without retry.  The second component counts the
attempts performed. -/
def call_with_retry {α : Type} (first second : RpcOutcome α) :
    RpcOutcome α × ℕ :=
  match first with
  | .success a => (.success a, 1)
  | .rpcError c =>
      if c = .unauthenticated then (second, 2) else (.rpcError c, 1)
  | .pyError m => (.pyError m, 1)

/-! ## Token lifecycle (`grpc_client._is_jwt_valid` / `_ensure_jwt`)

Python keeps `None`-or-string tokens and truth-tests them with
`bool(...)`; both `None` and the empty string are falsy, so the model
collapses them to `""`.  `time.time()` is passed in as `now`. -/

structure TokenState where
  jwt_token : String
  jwt_expires_at : ℚ
  refresh_token : String
  refresh_expires_at : ℚ
deriving DecidableEq, Repr

/-- Modelled from the spec: the auth service `RefreshToken` response
shape (spec section 6, `renew(renewalToken) -> same shape` as login).
Field names follow the accesses in `grpc_client._ensure_jwt`. -/
structure RefreshResponse where
  success : Bool
  jwt_token : String
  expires_at : ℚ
  refresh_token : String
  refresh_expires_at : ℚ
deriving DecidableEq, Repr

/-- What the renewal round trip would do: a response object, or a
raised exception. -/
inductive RefreshOutcome
| response (r : RefreshResponse)
| raised (msg : String)
deriving DecidableEq, Repr

/-- Embeds `GrpcClient._is_jwt_valid`: token present (truthy) and
`now < expires_at - 10`. -/
def is_jwt_valid (now : ℚ) (st : TokenState) : Bool :=
  (st.jwt_token != "") && decide (now < st.jwt_expires_at - 10)

/-- How a call to `_ensure_jwt` terminates: a returned token, the
raised `RuntimeError`, or no termination at all. -/
inductive JwtResult
| ok (token : String)
| authError (msg : String)
| deadlocked
deriving DecidableEq, Repr

/-- Embeds `GrpcClient._ensure_jwt`.  The whole body runs under
`with self._lock:` (line 113), a non-reentrant `threading.Lock`
(line 28).  A valid access token is returned; otherwise, when a
refresh token exists and `now < refresh_expires_at - 30`, the renewal
call is made.  On `resp.success` the in-memory credential fields are
replaced (lines 125-128) and then `_save_tokens()` is called
(line 129), which re-acquires the already-held lock (line 49): the
acquisition blocks forever, so this path never returns — modelled as
`.deadlocked`, paired with the in-memory credential at the moment of
the hang.  When the renewal response is unsuccessful, the renewal
raises, or no usable refresh token exists, the re-login `RuntimeError`
is raised. -/
def ensure_jwt (now : ℚ) (st : TokenState) (refresh : RefreshOutcome) :
    TokenState × JwtResult :=
  if is_jwt_valid now st then (st, .ok st.jwt_token)
  else if st.refresh_token ≠ "" ∧ now < st.refresh_expires_at - 30 then
    match refresh with
    | .response r =>
        if r.success then
          ({ jwt_token := r.jwt_token, jwt_expires_at := r.expires_at
             refresh_token := r.refresh_token
             refresh_expires_at := r.refresh_expires_at }, .deadlocked)
        else (st, .authError "No valid JWT and cannot refresh; re-login required")
    | .raised _ =>
        (st, .authError "No valid JWT and cannot refresh; re-login required")
  else (st, .authError "No valid JWT and cannot refresh; re-login required")

/-! ## Optimistic movement (`_process_movement` / `_move_player_on_server`) -/

/-- Modelled from the spec: the `movePlayer` response
`{success, message}` (spec section 6). -/
structure MoveResponse where
  success : Bool
  message : String
deriving DecidableEq, Repr

/-- Outcome of the `grpc_client.move_player` round trip as observed by
`_move_player_on_server`: a response object, a falsy response, or a
raised exception (caught and surfaced as a chat message). -/
inductive MoveCallOutcome
| response (r : MoveResponse)
| noResponse
| raised (msg : String)
deriving DecidableEq, Repr

/-- Chat/log lines emitted by the movement path (`ui.add_chat_message`
calls, message text abstracted to constructor + payload). -/
inductive ChatMsg
| serverOk (m : String)
| moveFailed (m : String)
| noAuthToken
| movementError (m : String)
| positionSyncFailed (m : String)
| movingTo (x y : ℚ) (mtype : String)
deriving DecidableEq, Repr

/-- The optimistic local write of `_process_movement`: position is set
to the target immediately, facing is derived from the delta, movement
state receives the raw mode string. -/
def process_movement_local (p : Entity) (target_x target_y : ℚ)
    (movement_type : String) : Entity :=
  let dx := target_x - p.x
  let dy := target_y - p.y
  { p with
    x := target_x
    y := target_y
    facing_direction :=
      if |dx| > |dy| then (if dx > 0 then 2 else 4)
      else (if dy > 0 then 3 else 1)
    movement_state := .raw movement_type }

/-- Chat effect of `_sync_player_position_to_server` (run on the
success path only); it reads the player state but never writes it. -/
def sync_position_chat (syncResp : Option MoveResponse) : List ChatMsg :=
  match syncResp with
  | some r => if r.success then [] else [.positionSyncFailed r.message]
  | none => [.positionSyncFailed "No response from server"]

/-- Embeds `GameScreen._move_player_on_server`: sends the move and surfaces
the outcome; no branch writes any field of the player entity. -/
def move_player_on_server (p : Entity) (hasToken : Bool)
    (call : MoveCallOutcome) (syncResp : Option MoveResponse) :
    Entity × List ChatMsg :=
  if hasToken then
    match call with
    | .response r =>
        if r.success then (p, .serverOk r.message :: sync_position_chat syncResp)
        else (p, [.moveFailed r.message])
    | .noResponse => (p, [.moveFailed "Unknown error"])
    | .raised msg => (p, [.movementError msg])
  else (p, [.noAuthToken])

/-- Embeds `GameScreen._process_movement`: optimistic local write, then the
server round trip, then the trailing `Moving to ...` chat line. -/
def process_movement (p : Entity) (target_x target_y : ℚ)
    (movement_type : String) (hasToken : Bool) (call : MoveCallOutcome)
    (syncResp : Option MoveResponse) : Entity × List ChatMsg :=
  let p1 := process_movement_local p target_x target_y movement_type
  let srv := move_player_on_server p1 hasToken call syncResp
  (srv.1, srv.2 ++ [.movingTo target_x target_y movement_type])

/-! ## The periodic auto-sync (`GameScreen.update`, lines 782-792) -/

/-- The slice of `GameScreen` state the auto-sync block touches. -/
structure AutoSyncState where
  last_auto_sync : ℚ
  localPlayer : Option Entity
  hasAuthToken : Bool
deriving DecidableEq, Repr

/-- The auto-sync block of `GameScreen.update`: when the 5-second
period has elapsed, push stats and position whenever a local player
and an auth token exist (`_sync_all_player_data_to_server`), then
stamp `last_auto_sync` regardless of the outcome.  The returned flag
tells whether a push was attempted; `syncSuccess` (the server outcome)
only selects the chat line, which is not part of this state slice. -/
def auto_sync_step (current_time : ℚ) (st : AutoSyncState)
    (_syncSuccess : Bool) : AutoSyncState × Bool :=
  if current_time - st.last_auto_sync > 5 then
    ({ st with last_auto_sync := current_time },
      st.localPlayer.isSome && st.hasAuthToken)
  else (st, false)

/-! ## Claims -/

/-- Fields of an entity other than `stats.hp`, `movement_state` and
`needs_sync` (the only ones `take_damage`/`heal` may write). -/
def onlyHealthStateSyncTouched (e1 e : Entity) : Prop :=
  e1.id = e.id ∧ e1.type = e.type ∧ e1.name = e.name ∧ e1.x = e.x
  ∧ e1.y = e.y ∧ e1.target_x = e.target_x ∧ e1.target_y = e.target_y
  ∧ e1.facing_direction = e.facing_direction ∧ e1.width = e.width
  ∧ e1.height = e.height ∧ e1.color = e.color
  ∧ e1.inventory = e.inventory ∧ e1.is_selected = e.is_selected
  ∧ e1.in_combat = e.in_combat
  ∧ e1.stats.max_hp = e.stats.max_hp ∧ e1.stats.mp = e.stats.mp
  ∧ e1.stats.max_mp = e.stats.max_mp ∧ e1.stats.level = e.stats.level
  ∧ e1.stats.experience = e.stats.experience
  ∧ e1.stats.attack = e.stats.attack ∧ e1.stats.defense = e.stats.defense
  ∧ e1.stats.speed = e.stats.speed

/-- Claim C10: starting from `0 ≤ hp ≤ max_hp`, `take_damage d` with
`d ≥ 0` yields `hp = max(0, hp - d)` (never negative), sets the
movement state to DEAD exactly when the new hp is zero, and `heal a`
with `a ≥ 0` yields `hp = min(max_hp, hp + a)` (never above `max_hp`);
both preserve the bounds and touch no field beyond hp, movement state
and the sync flag. -/
theorem c10_health_bounds (e : Entity) (d a : ℤ)
    (hlo : 0 ≤ e.stats.hp) (hhi : e.stats.hp ≤ e.stats.max_hp)
    (hd : 0 ≤ d) (ha : 0 ≤ a) :
    ((e.take_damage d).stats.hp = max 0 (e.stats.hp - d)
      ∧ 0 ≤ (e.take_damage d).stats.hp
      ∧ (e.take_damage d).stats.hp ≤ (e.take_damage d).stats.max_hp
      ∧ (e.take_damage d).movement_state =
          (if max 0 (e.stats.hp - d) = 0 then .enumv .dead
            else e.movement_state)
      ∧ (e.take_damage d).needs_sync = true)
    ∧ ((e.heal a).stats.hp = min e.stats.max_hp (e.stats.hp + a)
      ∧ 0 ≤ (e.heal a).stats.hp
      ∧ (e.heal a).stats.hp ≤ (e.heal a).stats.max_hp
      ∧ (e.heal a).movement_state = e.movement_state
      ∧ (e.heal a).needs_sync = true)
    ∧ onlyHealthStateSyncTouched (e.take_damage d) e
    ∧ onlyHealthStateSyncTouched (e.heal a) e := by
  have hmax0 : 0 ≤ e.stats.max_hp := le_trans hlo hhi
  refine ⟨⟨rfl, ?_, ?_, rfl, rfl⟩, ⟨rfl, ?_, ?_, rfl, rfl⟩, ?_, ?_⟩
  · exact le_max_left 0 _
  · show max 0 (e.stats.hp - d) ≤ e.stats.max_hp
    exact max_le hmax0 (le_trans (sub_le_self _ hd) hhi)
  · show (0:ℤ) ≤ min e.stats.max_hp (e.stats.hp + a)
    exact le_min hmax0 (add_nonneg hlo ha)
  · show min e.stats.max_hp (e.stats.hp + a) ≤ e.stats.max_hp
    exact min_le_left _ _
  · exact ⟨rfl, rfl, rfl, rfl, rfl, rfl, rfl, rfl, rfl, rfl, rfl, rfl, rfl,
      rfl, rfl, rfl, rfl, rfl, rfl, rfl, rfl, rfl⟩
  · exact ⟨rfl, rfl, rfl, rfl, rfl, rfl, rfl, rfl, rfl, rfl, rfl, rfl, rfl,
      rfl, rfl, rfl, rfl, rfl, rfl, rfl, rfl, rfl⟩

/-- Witness for C10 at a concrete monster entity with 100/100 hp,
damage 150 and heal 30. -/
theorem c10_witness :
    (0:ℤ) ≤ (Entity.init "m1" .monster 0 0 "Orc").stats.hp
    ∧ ((Entity.init "m1" .monster 0 0 "Orc").take_damage 150).stats.hp =
        max 0 ((Entity.init "m1" .monster 0 0 "Orc").stats.hp - 150)
    ∧ ((Entity.init "m1" .monster 0 0 "Orc").heal 30).stats.hp =
        min (Entity.init "m1" .monster 0 0 "Orc").stats.max_hp
          ((Entity.init "m1" .monster 0 0 "Orc").stats.hp + 30) :=
  have h := c10_health_bounds (Entity.init "m1" .monster 0 0 "Orc") 150 30
    (by decide) (by decide) (by decide) (by decide)
  ⟨by decide, h.1.1, h.2.1.1⟩

/-- Claim C2, code bug: the claim (and the spec) say a successful
renewal replaces the credential and returns the new access token, so a
caller with an expired access token but a valid refresh token never
observes an auth error.  The code cannot deliver this: `_ensure_jwt`
holds the non-reentrant `self._lock` for its whole body and, on the
renewal-success path, calls `_save_tokens()`, which re-acquires that
same lock — the call deadlocks and never returns the new token.  At
the failing input (access token expired at 50, now 100, refresh token
valid until 1000, renewal responding success with token "new") the
embedded `_ensure_jwt` reaches the deadlock instead of returning
`.ok "new"`; the invalid-token and unusable-refresh paths still
behave as the claim describes. -/
theorem c2_renewal_deadlock :
    is_jwt_valid 100 ⟨"old", 50, "ref", 1000⟩ = false
    ∧ ((100:ℚ) < 1000 - 30)
    ∧ (ensure_jwt 100 ⟨"old", 50, "ref", 1000⟩
        (.response ⟨true, "new", 500, "ref2", 2000⟩)).2 = .deadlocked
    ∧ ensure_jwt 100 ⟨"tok", 500, "", 0⟩ (.raised "unused") =
        (⟨"tok", 500, "", 0⟩, .ok "tok")
    ∧ ensure_jwt 100 ⟨"old", 50, "", 0⟩ (.raised "unused") =
        (⟨"old", 50, "", 0⟩,
          .authError "No valid JWT and cannot refresh; re-login required") := by
  refine ⟨?_, by norm_num, ?_, ?_, ?_⟩
  · norm_num [is_jwt_valid]
  · norm_num [ensure_jwt, is_jwt_valid]
    simp
  · norm_num [ensure_jwt, is_jwt_valid]
    simp
  · norm_num [ensure_jwt, is_jwt_valid]


/-- Claim C3: the optimistic move writes the target position into the
local player before the server call, and no branch of the response
handling (success, rejection, falsy response, exception, missing
token) writes any field back: the final player state is exactly the
optimistic one, so a `success=false` response leaves the position at
the target. -/
theorem c3_optimistic_move_not_rolled_back (p : Entity) (tx ty : ℚ)
    (mt : String) (hasToken : Bool) (call : MoveCallOutcome)
    (syncResp : Option MoveResponse) :
    (process_movement p tx ty mt hasToken call syncResp).1.x = tx
    ∧ (process_movement p tx ty mt hasToken call syncResp).1.y = ty
    ∧ (process_movement p tx ty mt hasToken call syncResp).1 =
        process_movement_local p tx ty mt
    ∧ (process_movement_local p tx ty mt).x = tx
    ∧ (process_movement_local p tx ty mt).y = ty := by
  have h1 : (move_player_on_server (process_movement_local p tx ty mt)
      hasToken call syncResp).1 = process_movement_local p tx ty mt := by
    unfold move_player_on_server
    cases call with
    | response r =>
        by_cases h : hasToken = true
        · by_cases hs : r.success = true <;> simp [h, hs]
        · simp [h]
    | noResponse => by_cases h : hasToken = true <;> simp [h]
    | raised m => by_cases h : hasToken = true <;> simp [h]
  have h2 : (process_movement p tx ty mt hasToken call syncResp).1 =
      process_movement_local p tx ty mt := h1
  refine ⟨?_, ?_, h2, rfl, rfl⟩
  · rw [h2]
    rfl
  · rw [h2]
    rfl

/-- Witness for C3 at the spec scenario: move to (250, 250), server
answers `success=false, "too far"`; the position stays (250, 250). -/
theorem c3_witness :
    (process_movement (Entity.init "me" .player 0 0 "Hero") 250 250 "walk"
      true (.response ⟨false, "too far"⟩) none).1.x = 250
    ∧ (process_movement (Entity.init "me" .player 0 0 "Hero") 250 250 "walk"
      true (.response ⟨false, "too far"⟩) none).1.y = 250 :=
  have h := c3_optimistic_move_not_rolled_back
    (Entity.init "me" .player 0 0 "Hero") 250 250 "walk" true
    (.response ⟨false, "too far"⟩) none
  ⟨h.1, h.2.1⟩

/-- Claim C8: `_call_with_retry` performs at most two attempts; a
second attempt happens exactly when the first was UNAUTHENTICATED, the
second attempt's outcome (auth-rejected included) is propagated as is,
and non-auth errors of the first attempt are propagated without any
retry. -/
theorem c8_single_renewal_retry {α : Type} (first second : RpcOutcome α) :
    (call_with_retry first second).2 ≤ 2
    ∧ ((call_with_retry first second).2 = 2 ↔
        first = .rpcError .unauthenticated)
    ∧ (first = .rpcError .unauthenticated →
        call_with_retry first second = (second, 2))
    ∧ (∀ c : StatusCode, c ≠ .unauthenticated →
        call_with_retry (.rpcError c) second = (.rpcError c, 1))
    ∧ (∀ a : α, call_with_retry (.success a) second = (.success a, 1))
    ∧ (∀ m : String, call_with_retry (.pyError m) second = (.pyError m, 1)) := by
  refine ⟨?_, ?_, ?_, ?_, ?_, ?_⟩
  · cases first with
    | success a => simp [call_with_retry]
    | rpcError c =>
        by_cases hc : c = .unauthenticated <;> simp [call_with_retry, hc]
    | pyError m => simp [call_with_retry]
  · cases first with
    | success a => simp [call_with_retry]
    | rpcError c =>
        by_cases hc : c = .unauthenticated <;> simp [call_with_retry, hc]
    | pyError m => simp [call_with_retry]
  · intro h
    subst h
    simp [call_with_retry]
  · intro c hc
    simp [call_with_retry, hc]
  · intro a
    simp [call_with_retry]
  · intro m
    simp [call_with_retry]

/-- Witness for C8: two consecutive UNAUTHENTICATED outcomes propagate
the auth error after exactly two attempts; a transient error is not
retried. -/
theorem c8_witness :
    call_with_retry (α := Unit) (.rpcError .unauthenticated)
        (.rpcError .unauthenticated) =
      (.rpcError .unauthenticated, 2)
    ∧ call_with_retry (α := Unit) (.rpcError .unavailable)
        (.success ()) = (.rpcError .unavailable, 1) :=
  have h := c8_single_renewal_retry (α := Unit)
    (.rpcError .unauthenticated) (.rpcError .unauthenticated)
  have h2 := c8_single_renewal_retry (α := Unit)
    (.rpcError .unavailable) (.success ())
  ⟨h.2.2.1 rfl, h2.2.2.2.1 .unavailable (by decide)⟩

/-- Claim C9 counterexample: the auto-sync block pushes even when the
local player has no unsent (dirty) state.  A freshly initialized
player has `needs_sync = false`, yet once the 5-second period has
elapsed (time 10, last sync 0) the push is attempted. -/
theorem c9_counterexample :
    (Entity.init "me" .player 0 0 "Hero").needs_sync = false
    ∧ (auto_sync_step 10
        { last_auto_sync := 0
          localPlayer := some (Entity.init "me" .player 0 0 "Hero")
          hasAuthToken := true } false).2 = true := by
  constructor
  · rfl
  · unfold auto_sync_step
    rw [if_pos (by norm_num)]
    rfl

/-- Claim C9, amended: the auto-sync block fires whenever the 5-second
period has elapsed and a local player plus auth token exist — the
dirty flag is neither consulted (the push decision is independent of
it) nor modified (the state slice, the player record and its
`needs_sync` flag included, is returned unchanged except for the
`last_auto_sync` stamp), and `last_auto_sync` is stamped on every
elapsed period regardless of the push outcome, so the next period
retries regardless. -/
theorem c9_auto_sync_amended (t : ℚ) (st : AutoSyncState) (ok : Bool) :
    ((auto_sync_step t st ok).2 = true ↔
      (t - st.last_auto_sync > 5 ∧ st.localPlayer.isSome = true
        ∧ st.hasAuthToken = true))
    ∧ (auto_sync_step t st ok).1.localPlayer = st.localPlayer
    ∧ (auto_sync_step t st ok).1.hasAuthToken = st.hasAuthToken
    ∧ (auto_sync_step t st ok).1.last_auto_sync =
        (if t - st.last_auto_sync > 5 then t else st.last_auto_sync) := by
  unfold auto_sync_step
  by_cases h : t - st.last_auto_sync > 5
  · rw [if_pos h, if_pos h]
    simp [h, Bool.and_eq_true]
  · rw [if_neg h, if_neg h]
    simp [h]

/-- Claim C7 counterexample: there is no bound on the number of
consecutive auth-rejected retries after which the streaming loop has
exited: as long as the local token refresh keeps succeeding, the loop
is still running after any number of consecutive UNAUTHENTICATED
rejections. -/
theorem c7_counterexample :
    ¬ ∃ B : ℕ, ∀ n : ℕ, B < n → (authRun n).status ≠ .running := by
  rintro ⟨B, h⟩
  have h1 := h (B + 1) (Nat.lt_succ_self B)
  rw [authRun_running] at h1
  exact h1 rfl

/-- Claim C7, amended: on an UNAUTHENTICATED stream failure the loop
refreshes the token and retries after a fixed short 0.25 s pause (not
immediately, and not with exponential backoff); it exits with the
fatal auth signal only when the token refresh itself raises; when the
refresh keeps succeeding the number of consecutive auth-rejected
retries is unbounded — after `n` such rejections the loop is still
running. -/
theorem c7_bounded_auth_retries_amended (st : StreamState) (n m : ℕ) :
    streamStep st (.authPreOpen true) =
      ({ consecutive_errors := st.consecutive_errors + 1, status := .running },
        some (1/4))
    ∧ streamStep st (.authPostOpen m true) =
      ({ consecutive_errors := 1, status := .running }, some (1/4))
    ∧ (streamStep st (.authPreOpen false)).1.status = .exitedAuthFailed
    ∧ (streamStep st (.authPostOpen m false)).1.status = .exitedAuthFailed
    ∧ (authRun n).status = .running
    ∧ (authRun n).consecutive_errors = n := by
  refine ⟨rfl, rfl, rfl, rfl, ?_, ?_⟩
  · rw [authRun_running]
  · rw [authRun_running]

theorem backoffBase_one : backoffBase 1 = 1/2 := by
  norm_num [backoffBase, min_def]

theorem backoffBase_two : backoffBase 2 = 1 := by
  norm_num [backoffBase, min_def]

/-- Claim C6 counterexample: the consecutive-failure counter is reset
on successful stream creation, not on message receipt.  Two transient
failures before a successful open followed by a transient failure
after an open that delivered zero messages form a run of three
consecutive transient failures with no message received, whose delays
(at identical jitter draw 1/2, i.e. jitter factor exactly 1) are
1/2 s, 1 s, 1/2 s: the third delay is smaller than even the loosest
jitter-tolerant bound `(7/13) * previous delay`, so the delay sequence
is not non-decreasing within the ±30 % tolerance. -/
theorem c6_counterexample :
    (streamRun ⟨0, .running⟩
      [.transientPreOpen (1/2), .transientPreOpen (1/2),
        .transientPostOpen 0 (1/2)]).2 = [1/2, 1, 1/2]
    ∧ ((1:ℚ)/2) < (7/13) * 1 := by
  constructor
  · simp [streamRun, streamStep, jitterDelay, backoffBase_one, backoffBase_two]
    norm_num
  · norm_num

/-- Claim C6, amended: the pre-jitter backoff `min(5, 2^min(n,5)/4)`
is non-decreasing in the consecutive-failure counter and bounded by
the 5-second ceiling, and each transient delay lies within the ±30 %
jitter band of its base; but the counter is reset by a successful
stream creation: a transient failure after any successful open (with
or without messages) sleeps the base delay 1/2 s again.  In
particular, after a successful message receipt the next failure's
delay is back at the base delay. -/
theorem c6_backoff_monotone_amended (n i j : ℕ) (st : StreamState)
    (m : ℕ) (b r : ℚ) (hij : i ≤ j) (hb : 0 ≤ b) (h0 : 0 ≤ r)
    (h1 : r < 1) :
    backoffBase i ≤ backoffBase j
    ∧ backoffBase n ≤ 5
    ∧ streamStep st (.transientPreOpen r) =
        ({ consecutive_errors := st.consecutive_errors + 1
           status := .running },
          some (jitterDelay (backoffBase (st.consecutive_errors + 1)) r))
    ∧ (7/10) * b ≤ jitterDelay b r
    ∧ jitterDelay b r ≤ (13/10) * b
    ∧ streamStep st (.transientPostOpen m r) =
        ({ consecutive_errors := 1, status := .running },
          some (jitterDelay (backoffBase 1) r))
    ∧ backoffBase 1 = 1/2 := by
  refine ⟨?_, ?_, rfl, ?_, ?_, rfl, backoffBase_one⟩
  · unfold backoffBase
    apply min_le_min (le_refl (5:ℚ))
    apply mul_le_mul_of_nonneg_right _ (by norm_num)
    exact pow_le_pow_right₀ (by norm_num) (min_le_min hij (le_refl 5))
  · exact min_le_left _ _
  · unfold jitterDelay
    nlinarith
  · unfold jitterDelay
    nlinarith

/-- Witness for C6 (amended) at counter values 1 ≤ 2, base 1/2 and
jitter draw 1/2. -/
theorem c6_witness :
    backoffBase 1 ≤ backoffBase 2
    ∧ backoffBase 9 ≤ 5
    ∧ (7/10) * (1/2 : ℚ) ≤ jitterDelay (1/2) (1/2)
    ∧ jitterDelay ((1:ℚ)/2) (1/2) ≤ (13/10) * (1/2) :=
  have h := c6_backoff_monotone_amended 9 1 2 ⟨0, .running⟩ 0 (1/2) (1/2)
    (by norm_num) (by norm_num) (by norm_num) (by norm_num)
  ⟨h.1, h.2.1, h.2.2.2.1, h.2.2.2.2.1⟩

/-- A monster entity known to the store, target of the malformed diff
entry below. -/
def exMonster : Entity := Entity.init "m1" .monster 10 10 "Orc"

/-- A stream diff entry for that monster whose `movement_state` string
is not a `MovementState` value: `MovementState("zzz")` raises
`ValueError`. -/
def exBadDiffEntity : WorldEntityData :=
  { id := "m1", entity_type := "monster", name := "Orc"
    position_x := 11, position_y := 12
    current_hp := 5, max_hp := 30, current_mp := 0, max_mp := 0
    attack := 3, defense := 1, facing_direction := 2
    movement_state := "zzz", is_alive := true }

/-- Claim C5 counterexample: an id on a diff's removed list can remain
in the store.  A diff whose updated-entities list holds a malformed
monster update (unparseable `movement_state`) raises before the
removal loop runs — the exception is caught around the whole queue
drain — so the entity `"gone"`, present before and listed in
`removed_entity_ids`, is still present after the message is
processed (and an error was reported). -/
theorem c5_counterexample :
    (findEntity [("m1", exMonster),
        ("gone", Entity.init "gone" .npc 0 0 "Old NPC")] "gone").isSome = true
    ∧ ((process_world_entity_updates
        [("m1", exMonster), ("gone", Entity.init "gone" .npc 0 0 "Old NPC")]
        ⟨[exBadDiffEntity], ["gone"]⟩).2).isSome = true
    ∧ (findEntity (process_world_entity_updates
        [("m1", exMonster), ("gone", Entity.init "gone" .npc 0 0 "Old NPC")]
        ⟨[exBadDiffEntity], ["gone"]⟩).1 "gone").isSome = true :=
  ⟨rfl, rfl, rfl⟩

/-- Claim C5, amended: (a) every id in a diff's removed list is absent
after the message is processed without an exception — when an updated
entry raises (malformed monster `movement_state`), processing aborts
before the removal loop and removed-list ids survive, see the
counterexample; (b) a previously known non-local `player_` entity that
every matching roster entry marks offline — in particular one absent
from the roster — is gone after a full snapshot is applied; (c)
removing an absent id is a no-op that raises nothing and returns the
store unchanged. -/
theorem c5_removal_correctness :
    (∀ (s : EntityStore) (u : WorldUpdate) (k : String),
      (process_world_entity_updates s u).2 = none →
      k ∈ u.removed_entity_ids →
      findEntity (process_world_entity_updates s u).1 k = none)
    ∧ (∀ (localId localName : String) (s : EntityStore)
        (ps : List PlayerInfo) (k : String),
      (ps.map PlayerInfo.id).Nodup →
      isPlayerKey k = true → k ≠ localId →
      (findEntity s k).isSome = true →
      (∀ i ∈ ps, pKey i = k → i.is_online = false) →
      findEntity (apply_player_updates localId localName s ps) k = none)
    ∧ (∀ (s : EntityStore) (k : String),
      findEntity s k = none → remove_entity s k = s) := by
  refine ⟨?_, ?_, ?_⟩
  · intro s u k hok hmem
    unfold process_world_entity_updates at hok ⊢
    cases hap : apply_entity_updates s u.updated_entities with
    | mk s1 err =>
        cases err with
        | none =>
            exact findEntity_remove_fold_mem _ _ _ hmem
        | some msg =>
            rw [hap] at hok
            simp at hok
  · intro localId localName s ps k hnd hpk hne hsome hoff
    rw [findEntity_apply_player_updates localId localName s ps hnd k]
    have hmem : k ∈ remoteIds localId s :=
      mem_remoteIds.mpr
        ⟨findEntity_isSome_iff_mem_keys.mp hsome, hpk, hne⟩
    cases hfind : ps.find? (fun i => pKey i == k) with
    | none =>
        show (if k ∈ remoteIds localId s then none else findEntity s k) = none
        rw [if_pos hmem]
    | some i =>
        have hik : pKey i = k := by
          have hpred := List.find?_some hfind
          simpa using hpred
        have hio : i.is_online = false :=
          hoff i (List.mem_of_find?_eq_some hfind) hik
        show (if i.name ≠ localName ∧ i.is_online = true then
            some (upsertVal i (findEntity s k))
          else if k ∈ remoteIds localId s then none else findEntity s k) = none
        rw [if_neg (fun hh => by rw [hio] at hh; exact Bool.false_ne_true hh.2),
          if_pos hmem]
  · intro s k h
    exact remove_entity_absent s k h

/-- Witness for C5: a diff removing the only entity leaves it absent;
a snapshot with an empty roster removes a known remote player; a
removal on the empty store is the identity. -/
theorem c5_witness :
    findEntity (process_world_entity_updates
        [("gone", Entity.init "gone" .npc 0 0 "Old NPC")]
        ⟨[], ["gone"]⟩).1 "gone" = none
    ∧ findEntity (apply_player_updates "me" "Hero"
        [("player_7", Entity.init "player_7" .player 1 2 "Bob")] [])
        "player_7" = none
    ∧ remove_entity [] "ghost" = [] :=
  ⟨c5_removal_correctness.1
      [("gone", Entity.init "gone" .npc 0 0 "Old NPC")] ⟨[], ["gone"]⟩
      "gone" rfl (by simp),
    c5_removal_correctness.2.1 "me" "Hero"
      [("player_7", Entity.init "player_7" .player 1 2 "Bob")] [] "player_7"
      (by simp) (by decide) (by decide) rfl (by simp),
    c5_removal_correctness.2.2 [] "ghost" rfl⟩

/-- The local player entity as created at session start
(`_initialize_world`): a client-generated UUID id (never carrying the
`player_` roster key format). -/
def exLocalPlayer : Entity := Entity.init "me" .player 0 0 "Hero"

/-- A stream diff entry that carries the local player's identifier. -/
def exDiffEntity : WorldEntityData :=
  { id := "me", entity_type := "player", name := "Hero"
    position_x := 5, position_y := 5
    current_hp := 0, max_hp := 0, current_mp := 0, max_mp := 0
    attack := 0, defense := 0, facing_direction := 0
    movement_state := "", is_alive := true }

/-- Claim C1 counterexample: the incremental-diff path has no
local-player guard.  A stream message whose updated-entities list
carries the local player's identifier overwrites the local player's
position: starting at (0,0), after the diff the local player sits at
the server-sent (5,5), and the message was processed without error. -/
theorem c1_counterexample :
    (findEntity [("me", exLocalPlayer)] "me").map Entity.x = some 0
    ∧ (process_world_entity_updates [("me", exLocalPlayer)]
        ⟨[exDiffEntity], []⟩).2 = none
    ∧ (findEntity (process_world_entity_updates [("me", exLocalPlayer)]
        ⟨[exDiffEntity], []⟩).1 "me").map Entity.x = some 5 :=
  ⟨rfl, rfl, rfl⟩

theorem findEntity_phase1_unreferenced (localName : String)
    (remotes : List String) (ps : List PlayerInfo) (s : EntityStore)
    (k : String) :
    (∀ i ∈ ps, pKey i ≠ k) →
    findEntity (ps.foldl (phase1Step localName remotes) s) k =
      findEntity s k := by
  induction ps generalizing s with
  | nil => intro _; rfl
  | cons i rest ih =>
      intro h
      rw [List.foldl_cons,
        ih (phase1Step localName remotes s i)
          (fun j hj => h j (List.mem_cons_of_mem i hj)),
        phase1Step_other_key localName remotes s i k
          (h i (List.mem_cons_self i rest))]

theorem local_not_mem_remoteIds (localId : String) (s : EntityStore) :
    localId ∉ remoteIds localId s := by
  intro h
  exact (mem_remoteIds.mp h).2.2 rfl

/-- Claim C1, amended: full-roster snapshots never overwrite or remove
the local player's entry — roster writes target `player_`-prefixed
keys and the cleanup loop excludes the local id, so given the local id
does not carry the `player_` prefix (it is a client-generated UUID)
the entry is untouched.  The incremental-diff path, however, has no
local-player guard: its immunity holds only when neither the updated
entities nor the removed ids reference the local player's identifier
(otherwise the local position is overwritten, see the
counterexample). -/
theorem c1_local_player_immunity_amended (localId localName : String)
    (s : EntityStore) (ps : List PlayerInfo) (u : WorldUpdate)
    (hkey : isPlayerKey localId = false)
    (hupd : ∀ d ∈ u.updated_entities, d.id ≠ localId)
    (hrem : localId ∉ u.removed_entity_ids) :
    findEntity (apply_player_updates localId localName s ps) localId =
      findEntity s localId
    ∧ findEntity (process_world_entity_updates s u).1 localId =
      findEntity s localId := by
  constructor
  · unfold apply_player_updates
    rw [findEntity_cleanup,
      if_neg (fun hh => local_not_mem_remoteIds localId s hh.1)]
    exact findEntity_phase1_unreferenced localName _ ps s localId
      (fun i _ => pKey_ne_of_not_isPlayerKey (by simp [hkey]) i)
  · unfold process_world_entity_updates
    cases hap : apply_entity_updates s u.updated_entities with
    | mk s1 err =>
        have hs1 : findEntity s1 localId = findEntity s localId := by
          have h := apply_entity_updates_other_key u.updated_entities s
            localId hupd
          rw [hap] at h
          exact h
        cases err with
        | none =>
            show findEntity (u.removed_entity_ids.foldl remove_entity s1)
              localId = findEntity s localId
            rw [findEntity_remove_fold_not_mem _ _ _ hrem, hs1]
        | some msg => exact hs1

/-- Witness for C1 (amended): an empty roster snapshot and a diff that
does not reference the local id both leave the local player's entry
untouched. -/
theorem c1_witness :
    isPlayerKey "me" = false
    ∧ findEntity (apply_player_updates "me" "Hero" [("me", exLocalPlayer)] [])
        "me" = findEntity [("me", exLocalPlayer)] "me"
    ∧ findEntity (process_world_entity_updates [("me", exLocalPlayer)]
        ⟨[], ["player_9"]⟩).1 "me" = findEntity [("me", exLocalPlayer)] "me" :=
  have h := c1_local_player_immunity_amended "me" "Hero"
    [("me", exLocalPlayer)] [] ⟨[], ["player_9"]⟩ (by decide)
    (by simp) (by simp)
  ⟨by decide, h.1, h.2⟩

theorem not_mem_remoteIds_after (localId : String) {s1 s : EntityStore}
    {k : String}
    (hs1 : findEntity s1 k =
      if k ∈ remoteIds localId s then none else findEntity s k) :
    k ∉ remoteIds localId s1 := by
  intro hmem
  obtain ⟨hpres, hpk, hne⟩ := mem_remoteIds.mp hmem
  have hsome : (findEntity s1 k).isSome = true :=
    findEntity_isSome_iff_mem_keys.mpr hpres
  rw [hs1] at hsome
  by_cases hr : k ∈ remoteIds localId s
  · rw [if_pos hr] at hsome
    simp at hsome
  · rw [if_neg hr] at hsome
    exact hr (mem_remoteIds.mpr
      ⟨findEntity_isSome_iff_mem_keys.mp hsome, hpk, hne⟩)

theorem upsertVal_absorb (i : PlayerInfo) (v : Option Entity) :
    upsertVal i (some (upsertVal i v)) = upsertVal i v := by
  cases v with
  | none =>
      show updFields i (createRemote i) = createRemote i
      rfl
  | some e =>
      show updFields i (updFields i e) = updFields i e
      rfl

/-- Claim C4: applying the same full-roster snapshot twice in
succession yields an entity store with the same identifiers and the
same per-entity field values as applying it once (stores compared by
lookup on every key), provided the roster lists each player id once. -/
theorem c4_reconciliation_idempotent (localId localName : String)
    (s : EntityStore) (ps : List PlayerInfo)
    (hnd : (ps.map PlayerInfo.id).Nodup) (k : String) :
    findEntity (apply_player_updates localId localName
        (apply_player_updates localId localName s ps) ps) k =
      findEntity (apply_player_updates localId localName s ps) k := by
  have hs1 := findEntity_apply_player_updates localId localName s ps hnd k
  rw [findEntity_apply_player_updates localId localName
    (apply_player_updates localId localName s ps) ps hnd k]
  cases hfind : ps.find? (fun i => pKey i == k) with
  | none =>
      rw [hfind] at hs1
      have hs1 : findEntity (apply_player_updates localId localName s ps) k =
          (if k ∈ remoteIds localId s then none else findEntity s k) := hs1
      show (if k ∈ remoteIds localId (apply_player_updates localId localName s ps)
          then none
          else findEntity (apply_player_updates localId localName s ps) k) =
        findEntity (apply_player_updates localId localName s ps) k
      rw [if_neg (not_mem_remoteIds_after localId hs1)]
  | some i =>
      rw [hfind] at hs1
      have hs1 : findEntity (apply_player_updates localId localName s ps) k =
          (if i.name ≠ localName ∧ i.is_online = true then
            some (upsertVal i (findEntity s k))
          else if k ∈ remoteIds localId s then none else findEntity s k) := hs1
      show (if i.name ≠ localName ∧ i.is_online = true then
          some (upsertVal i
            (findEntity (apply_player_updates localId localName s ps) k))
        else if k ∈ remoteIds localId (apply_player_updates localId localName s ps)
          then none
          else findEntity (apply_player_updates localId localName s ps) k) =
        findEntity (apply_player_updates localId localName s ps) k
      by_cases hcase : i.name ≠ localName ∧ i.is_online = true
      · rw [if_pos hcase] at hs1
        rw [if_pos hcase, hs1, upsertVal_absorb]
      · rw [if_neg hcase] at hs1
        rw [if_neg hcase, if_neg (not_mem_remoteIds_after localId hs1)]

/-- Witness for C4 at a concrete store and a one-entry roster (a new
online remote player) : applying the snapshot twice equals applying it
once at every key involved. -/
theorem c4_witness :
    ((([⟨"1", "Bob", true, 3, 4, 2, 0, 80, 90, 10, 20, 7, 6, 1, "walking"⟩]
        : List PlayerInfo).map PlayerInfo.id).Nodup)
    ∧ findEntity (apply_player_updates "me" "Hero"
        (apply_player_updates "me" "Hero" [("me", exLocalPlayer)]
          [⟨"1", "Bob", true, 3, 4, 2, 0, 80, 90, 10, 20, 7, 6, 1, "walking"⟩])
        [⟨"1", "Bob", true, 3, 4, 2, 0, 80, 90, 10, 20, 7, 6, 1, "walking"⟩])
        "player_1" =
      findEntity (apply_player_updates "me" "Hero" [("me", exLocalPlayer)]
        [⟨"1", "Bob", true, 3, 4, 2, 0, 80, 90, 10, 20, 7, 6, 1, "walking"⟩])
        "player_1" :=
  ⟨by simp,
    c4_reconciliation_idempotent "me" "Hero" [("me", exLocalPlayer)]
      [⟨"1", "Bob", true, 3, 4, 2, 0, 80, 90, 10, 20, 7, 6, 1, "walking"⟩]
      (by simp) "player_1"⟩
